import Mathlib

/-!
Verification development for the Pangolin Windows client (fosrl/windows).

This file gives a shallow embedding, in Lean 4, of the parts of the Go
source that the checked properties are about:

* `updater/versions.go`  — version comparison and update-candidate selection
* `updater/signify.go`   — signed manifest parsing and verification
* `tunnel/manager.go`    — tunnel configuration building and status polling
* `tunnel/build.go`      — tunnel start/stop state machine
* `config/accounts.go`   — the account store
* `config/config.go`     — the DNS configuration store
* `fingerprint` package  — the platform fingerprint hash
* `managers` IPC server  — RPC dispatch and the elevation gate

Pure Go functions become Lean functions; stateful code is modelled by
explicit state passing (records of the mutated globals plus traces of
emitted notifications and requested side effects); fallible Go functions
return `Except`/`Option`.  Go strings that flow through the functions
below are ASCII in every checked scenario, so a string's bytes are
modelled as the list of its character codes.
-/

set_option maxRecDepth 16384

namespace PangolinSpec

instance {ε α : Type} [DecidableEq ε] [DecidableEq α] : DecidableEq (Except ε α) := fun x y =>
  match x, y with
  | .ok a, .ok b => if h : a = b then .isTrue (by rw [h]) else .isFalse (by simp [h])
  | .error a, .error b => if h : a = b then .isTrue (by rw [h]) else .isFalse (by simp [h])
  | .ok _, .error _ => .isFalse (by simp)
  | .error _, .ok _ => .isFalse (by simp)

/-! ## Go string primitives

Lean's own `String.splitOn`, `String.startsWith`, … are built on byte
positions and do not reduce in the kernel, so the Go `strings`/`bytes`
helpers used by the source are re-implemented here over `List Char`
(one `Char` per byte; all strings that reach them are ASCII). -/

namespace GoStr

/-- Whether `p` is a leading segment of `s` (`strings.HasPrefix`). -/
def isPre : List Char → List Char → Bool
  | [], _ => true
  | _ :: _, [] => false
  | a :: p, b :: s => a = b && isPre p s

/-- Whether `p` is a trailing segment of `s` (`strings.HasSuffix`). -/
def isSuf (p s : List Char) : Bool :=
  decide (p.length ≤ s.length) && decide (s.drop (s.length - p.length) = p)

/-- Split at the first occurrence of `sep`: the part before it and the part
after it, or `none` when `sep` does not occur. -/
def splitFirst (sep : List Char) : List Char → Option (List Char × List Char)
  | [] => none
  | c :: rest =>
      if isPre sep (c :: rest) then some ([], (c :: rest).drop sep.length)
      else
        match splitFirst sep rest with
        | none => none
        | some (a, b) => some (c :: a, b)

/-- Go `strings.Split` for a non-empty separator, with explicit fuel (each
recursive call consumes at least one character, so `s.length + 1` suffices). -/
def splitAllAux (sep : List Char) : Nat → List Char → List (List Char)
  | 0, s => [s]
  | fuel + 1, s =>
      match splitFirst sep s with
      | none => [s]
      | some (a, b) => a :: splitAllAux sep fuel b

/-- Go `strings.Split(s, sep)` for a non-empty separator. -/
def splitAll (sep s : List Char) : List (List Char) :=
  splitAllAux sep (s.length + 1) s

/-- Go `strings.SplitN(s, sep, 3)` / `bytes.SplitN(s, sep, 3)`: at most three
pieces, the last one containing the unsplit remainder. -/
def splitN3 (sep s : List Char) : List (List Char) :=
  match splitAll sep s with
  | a :: b :: c :: rest => [a, b, List.intercalate sep (c :: rest)]
  | parts => parts

/-- Go `strings.TrimPrefix(s, pre)`. -/
def trimPreFn (pre s : List Char) : List Char :=
  if isPre pre s then s.drop pre.length else s

/-- Go `strings.TrimSuffix(s, suf)`. -/
def trimSufFn (suf s : List Char) : List Char :=
  if isSuf suf s then s.take (s.length - suf.length) else s

/-- Decimal value of a digit string. -/
def digitsVal (l : List Char) : Nat :=
  l.foldl (fun acc c => acc * 10 + (c.toNat - 48)) 0

example : splitAll ['.'] "a..b".data = ["a".data, [], "b".data] := by decide
example : splitAll ['.'] [] = [[]] := by decide
example : splitN3 ['\n'] "a\nb\nc\nd".data = ["a".data, "b".data, "c\nd".data] := by decide
example : splitN3 ['\n'] "a\nb".data = ["a".data, "b".data] := by decide
example : isSuf ".msi".data "pangolin-amd64-1.0.31.msi".data = true := by decide

end GoStr

/-! ## `updater/versions.go` -/

namespace Updater

/-- Go `strconv.ParseUint(s, 10, 16)`: succeeds exactly on a non-empty all-digit
string whose value fits in 16 bits (Go rejects signs, blanks and overflow). -/
def parseUint16 (s : List Char) : Option Nat :=
  if s.length ≠ 0 ∧ s.all Char.isDigit then
    let v := GoStr.digitsVal s
    if v ≤ 65535 then some v else none
  else none

/-- The `if i < len(parts)` body of the comparison loop of
`versionNewerThanUs` on the component at index `i` when present (empty
component and `ParseUint` rejection are errors), or 0 when the index is
past the end (missing components are 0). -/
def partVal : Option (List Char) → Except String Nat
  | none => .ok 0
  | some s =>
      if s.length = 0 then .error "Empty version part"
      else
        match parseUint16 s with
        | some v => .ok v
        | none => .error "Invalid version integer part"

/-- One indexed access of the comparison loop of `versionNewerThanUs`. -/
def partAt (parts : List (List Char)) (i : Nat) : Except String Nat :=
  partVal (parts.get? i)

/-- The `for i := 0; i < l; i++` loop of `versionNewerThanUs`: compare the
components at index `i`, recursing while they are equal, returning the
comparison at the first difference and `false` when the loop ends.
`fuel` is the number of remaining iterations, `l - i` at the call. -/
def versionLoopAux (cParts oParts : List (List Char)) : Nat → Nat → Except String Bool
  | _, 0 => .ok false
  | i, fuel + 1 =>
      match partAt cParts i, partAt oParts i with
      | .error e, _ => .error e
      | .ok _, .error e => .error e
      | .ok cP, .ok oP =>
          if cP = oP then versionLoopAux cParts oParts (i + 1) fuel
          else .ok (decide (cP > oP))

/-- The comparison loop started at index `i` with `l - i` iterations left. -/
def versionLoop (cParts oParts : List (List Char)) (i : Nat) : Except String Bool :=
  versionLoopAux cParts oParts i (max cParts.length oParts.length - i)

/-- Go `versionNewerThanUs` of `updater/versions.go`, with the running version
`version.Number` (a build-time constant of the repository's `version`
package, not under `src/`) made an explicit argument `ourVersion`. -/
def versionNewerThanUs (ourVersion candidate : String) : Except String Bool :=
  let candidateParts := GoStr.splitAll ['.'] candidate.data
  let ourParts := GoStr.splitAll ['.'] ourVersion.data
  if candidateParts.length = 0 ∨ ourParts.length = 0 then .error "Empty version"
  else versionLoop candidateParts ourParts 0

example : versionNewerThanUs "1.0.30" "1.0.31" = .ok true := by decide
example : versionNewerThanUs "1.0.30" "1.0.30" = .ok false := by decide
example : versionNewerThanUs "1.0.30" "1.0" = .ok false := by decide
example : versionNewerThanUs "1.0" "1.0.1" = .ok true := by decide
example : versionNewerThanUs "1.0" "1..2" = .error "Empty version part" := by decide
example : versionNewerThanUs "1.0" "1.x" = .error "Invalid version integer part" := by decide
example : versionNewerThanUs "1.0" "1.99999" = .error "Invalid version integer part" := by decide
example : versionNewerThanUs "1.0" "2.x" = .ok true := by decide

/-- The dot-separated components of a version string, as decimal values. -/
def compVals (s : String) : List Nat :=
  (GoStr.splitAll ['.'] s.data).map GoStr.digitsVal

/-- Pad a component list with zeros on the right up to length `n`
("missing components treated as 0"). -/
def pad0 (n : Nat) (l : List Nat) : List Nat :=
  l ++ List.replicate (n - l.length) 0

/-- The specification's comparison: `cand` is strictly newer than `our` iff
the padded component list of `our` is lexicographically below that of
`cand`, comparing components left to right with missing components as 0. -/
def specStrictlyNewer (our cand : String) : Prop :=
  let c := compVals cand
  let o := compVals our
  let n := max c.length o.length
  List.Lex (· < ·) (pad0 n o) (pad0 n c)

instance (our cand : String) : Decidable (specStrictlyNewer our cand) := by
  unfold specStrictlyNewer
  exact List.Lex.decidableRel _ _ _

/-- A version component is valid when Go's `ParseUint(.,10,16)` accepts it. -/
def validComps (s : String) : Prop :=
  ∀ p ∈ GoStr.splitAll ['.'] s.data, (parseUint16 p).isSome = true

instance (s : String) : Decidable (validComps s) := by
  unfold validComps
  exact List.decidableBAll _ _

theorem parseUint16_isSome_val {p : List Char} (h : (parseUint16 p).isSome = true) :
    parseUint16 p = some (GoStr.digitsVal p) := by
  unfold parseUint16 at h ⊢
  by_cases hc : p.length ≠ 0 ∧ p.all Char.isDigit = true
  · rw [if_pos hc] at h ⊢
    by_cases hval : GoStr.digitsVal p ≤ 65535
    · simp [hval]
    · simp [hval] at h
  · rw [if_neg hc] at h
    exact absurd h (by simp)

theorem partAt_valid {parts : List (List Char)}
    (hv : ∀ p ∈ parts, (parseUint16 p).isSome = true) (i : Nat) :
    partAt parts i = .ok ((parts.map GoStr.digitsVal).getD i 0) := by
  unfold partAt
  cases hg : parts.get? i with
  | none =>
      have hlen : parts.length ≤ i := by
        by_contra hlt
        rw [List.get?_eq_getElem?, List.getElem?_eq_getElem (by omega)] at hg
        exact Option.noConfusion hg
      rw [partVal, List.getD_eq_default _ _ (by simpa using hlen)]
  | some s =>
      have hmem : s ∈ parts := List.get?_mem hg
      have hi : i < parts.length := by
        by_contra hge
        rw [List.get?_eq_getElem?, List.getElem?_eq_none (by omega)] at hg
        exact Option.noConfusion hg
      have hs := parseUint16_isSome_val (hv s hmem)
      have hne : s.length ≠ 0 := by
        intro h0
        unfold parseUint16 at hs
        rw [if_neg (by simp [h0])] at hs
        exact Option.noConfusion hs
      have hgi : parts[i] = s := by
        have h1 : parts[i]? = some s := by rw [← List.get?_eq_getElem?]; exact hg
        rw [List.getElem?_eq_getElem hi] at h1
        exact Option.some.inj h1
      rw [partVal, if_neg hne, hs]
      rw [List.getD_eq_getElem _ _ (by simpa using hi), List.getElem_map, hgi]

theorem getD_pad0 (n i : Nat) (l : List Nat) : (pad0 n l).getD i 0 = l.getD i 0 := by
  unfold pad0
  rcases Nat.lt_or_ge i l.length with h | h
  · rw [List.getD_append _ _ _ _ h]
  · rw [List.getD_append_right _ _ _ _ h, List.getD_eq_default _ _ h]
    rcases Nat.lt_or_ge (i - l.length) (n - l.length) with h2 | h2
    · rw [List.getD_eq_getElem _ _ (by simpa using h2), List.getElem_replicate]
    · rw [List.getD_eq_default _ _ (by simpa using h2)]

theorem pad0_length {n : Nat} {l : List Nat} (h : l.length ≤ n) :
    (pad0 n l).length = n := by
  simp [pad0, List.length_append, List.length_replicate]
  omega

theorem lex_cons_ne {a b : Nat} {l₁ l₂ : List Nat} (h : a ≠ b) :
    List.Lex (· < ·) (a :: l₁) (b :: l₂) ↔ a < b := by
  constructor
  · intro hx
    cases hx with
    | cons h' => exact absurd rfl h
    | rel h' => exact h'
  · exact List.Lex.rel

theorem versionLoopAux_spec (c o : List (List Char))
    (hvc : ∀ p ∈ c, (parseUint16 p).isSome = true)
    (hvo : ∀ p ∈ o, (parseUint16 p).isSome = true) :
    ∀ fuel i, max c.length o.length ≤ i + fuel →
      versionLoopAux c o i fuel =
        .ok (decide (List.Lex (· < ·)
          ((pad0 (max c.length o.length) (o.map GoStr.digitsVal)).drop i)
          ((pad0 (max c.length o.length) (c.map GoStr.digitsVal)).drop i))) := by
  intro fuel
  induction fuel with
  | zero =>
      intro i hi
      have hcl : (pad0 (max c.length o.length) (c.map GoStr.digitsVal)).length = _ :=
        pad0_length (by simp only [List.length_map]; omega)
      have hol : (pad0 (max c.length o.length) (o.map GoStr.digitsVal)).length = _ :=
        pad0_length (by simp only [List.length_map]; omega)
      rw [versionLoopAux, List.drop_eq_nil_of_le (by omega), List.drop_eq_nil_of_le (by omega)]
      simp
  | succ fuel ih =>
      intro i hi
      have hstep : versionLoopAux c o i (fuel + 1) =
          if (c.map GoStr.digitsVal).getD i 0 = (o.map GoStr.digitsVal).getD i 0 then
            versionLoopAux c o (i + 1) fuel
          else .ok (decide ((o.map GoStr.digitsVal).getD i 0 < (c.map GoStr.digitsVal).getD i 0)) := by
        rw [versionLoopAux, partAt_valid hvc, partAt_valid hvo]
      rw [hstep]
      set n := max c.length o.length with hn
      have hcl : (pad0 n (c.map GoStr.digitsVal)).length = n :=
        pad0_length (by simp only [List.length_map]; omega)
      have hol : (pad0 n (o.map GoStr.digitsVal)).length = n :=
        pad0_length (by simp only [List.length_map]; omega)
      rcases lt_or_ge i n with hin | hin
      · have hdc : (pad0 n (c.map GoStr.digitsVal)).drop i =
            ((c.map GoStr.digitsVal).getD i 0) :: (pad0 n (c.map GoStr.digitsVal)).drop (i + 1) := by
          rw [List.drop_eq_getElem_cons (by omega)]
          congr 1
          rw [← getD_pad0 n i, List.getD_eq_getElem _ _ (by omega)]
        have hdo : (pad0 n (o.map GoStr.digitsVal)).drop i =
            ((o.map GoStr.digitsVal).getD i 0) :: (pad0 n (o.map GoStr.digitsVal)).drop (i + 1) := by
          rw [List.drop_eq_getElem_cons (by omega)]
          congr 1
          rw [← getD_pad0 n i, List.getD_eq_getElem _ _ (by omega)]
        by_cases heq : (c.map GoStr.digitsVal).getD i 0 = (o.map GoStr.digitsVal).getD i 0
        · rw [if_pos heq, ih (i + 1) (by omega), hdc, hdo, heq]
          congr 1
          rw [decide_eq_decide]
          exact List.Lex.cons_iff.symm
        · rw [if_neg heq, hdc, hdo]
          congr 1
          rw [decide_eq_decide]
          exact (lex_cons_ne (fun hh => heq hh.symm)).symm
      · have hc0 : (c.map GoStr.digitsVal).getD i 0 = 0 :=
          List.getD_eq_default _ _ (by simp only [List.length_map]; omega)
        have ho0 : (o.map GoStr.digitsVal).getD i 0 = 0 :=
          List.getD_eq_default _ _ (by simp only [List.length_map]; omega)
        rw [hc0, ho0, if_pos rfl, ih (i + 1) (by omega),
          List.drop_eq_nil_of_le (by omega), List.drop_eq_nil_of_le (by omega),
          List.drop_eq_nil_of_le (by omega), List.drop_eq_nil_of_le (by omega)]

theorem splitAllAux_ne_nil (sep : List Char) (fuel : Nat) (s : List Char) :
    GoStr.splitAllAux sep fuel s ≠ [] := by
  cases fuel with
  | zero => simp [GoStr.splitAllAux]
  | succ fuel =>
      rw [GoStr.splitAllAux]
      cases GoStr.splitFirst sep s with
      | none => simp
      | some p => simp

/-- C4 (amended). When every dot-separated component of both versions is
a valid unsigned 16-bit decimal token, `versionNewerThanUs` returns a
comparison result (never an error), and that result is `true` iff the
candidate is strictly greater under component-wise left-to-right comparison
with missing components treated as 0.  (The validity hypothesis cannot be
dropped: the loop returns at the first differing component without
examining later tokens — see the counterexample.) -/
theorem versionNewerThanUs_correct_on_valid (our cand : String)
    (hvo : validComps our) (hvc : validComps cand) :
    versionNewerThanUs our cand = .ok (decide (specStrictlyNewer our cand)) := by
  unfold versionNewerThanUs
  have hc : GoStr.splitAll ['.'] cand.data ≠ [] :=
    splitAllAux_ne_nil ['.'] (cand.data.length + 1) cand.data
  have ho : GoStr.splitAll ['.'] our.data ≠ [] :=
    splitAllAux_ne_nil ['.'] (our.data.length + 1) our.data
  rw [if_neg (by
    simp only [List.length_eq_zero]
    rintro (h | h)
    · exact hc h
    · exact ho h)]
  unfold versionLoop
  rw [versionLoopAux_spec _ _ hvc hvo _ 0 (by omega)]
  simp only [List.drop_zero]
  unfold specStrictlyNewer compVals
  simp only [List.length_map]

/-- C4 (counterexample to the claim as stated). `"x"` is a component of
the candidate version `"2.x"` and is not a valid unsigned 16-bit token, yet
`versionNewerThanUs` returns the comparison result `ok true`, not an error:
the loop stops at the first differing component (`2 > 1`) without validating
the rest. -/
theorem versionNewerThanUs_invalid_token_not_rejected :
    versionNewerThanUs "1.0" "2.x" = .ok true ∧
      "x".data ∈ GoStr.splitAll ['.'] "2.x".data ∧
      (parseUint16 "x".data).isSome = false := by
  refine ⟨by decide, by decide, by decide⟩

/-- C4 witness. The amended theorem applied at `our = "1.0.30"`,
`cand = "1.0.31"`. -/
theorem versionNewerThanUs_correct_on_valid_witness :
    versionNewerThanUs "1.0.30" "1.0.31" = .ok true := by
  have h := versionNewerThanUs_correct_on_valid "1.0.30" "1.0.31" (by decide) (by decide)
  rw [h]
  decide

/-! ## `updater/versions.go` — `findCandidate`

`readFileList` (below) returns a Go `map[string]fileEntry`, and
`findCandidate` iterates it with `for name, entry := range candidates`.
Go's map iteration order is unspecified, so `findCandidate` is embedded as
a function of an *enumeration* of the map: a list of key/entry pairs.  Two
enumerations of the same map are permutations of one another. -/

/-- Go `fileEntry` of `updater/signify.go` (hash is 32 BLAKE2b-256 bytes). -/
structure FileEntry where
  hash : List Nat
  downloadLocation : String
deriving DecidableEq

/-- Go `UpdateFound` of `updater/downloader.go` (the fields `findCandidate`
fills in). -/
structure UpdateFound where
  name : String
  hash : List Nat
  downloadLocation : String
deriving DecidableEq

/-- Go `fmt.Sprintf(msiArchPrefix, version.Arch())` with
`msiArchPrefix = "pangolin-%s-"`. -/
def msiPre (arch : String) : List Char :=
  "pangolin-".data ++ arch.data ++ "-".data

/-- Go `msiSuffix = ".msi"`. -/
def msiSuf : List Char := ".msi".data

/-- Go `strings.TrimSuffix(strings.TrimPrefix(name, prefix), suffix)`. -/
def entryVersion (arch name : String) : List Char :=
  GoStr.trimSufFn msiSuf (GoStr.trimPreFn (msiPre arch) name.data)

/-- The filename filter of `findCandidate`. -/
def entryMatch (arch name : String) : Bool :=
  GoStr.isPre (msiPre arch) name.data && GoStr.isSuf msiSuf name.data

/-- Go `findCandidate` of `updater/versions.go`, iterating one enumeration of
the manifest map; `ourVersion`/`arch` stand for `version.Number` and
`version.Arch()` of the repository's `version` package (not under `src/`). -/
def findCandidate (ourVersion arch : String) :
    List (String × FileEntry) → Except String (Option UpdateFound)
  | [] => .ok none
  | (name, entry) :: rest =>
      if entryMatch arch name then
        if (entryVersion arch name).length > 128 then .error "Version length is too long"
        else
          match versionNewerThanUs ourVersion (String.mk (entryVersion arch name)) with
          | .error e =>
              .error ("error comparing version " ++ String.mk (entryVersion arch name) ++ ": " ++ e)
          | .ok true => .ok (some ⟨name, entry.hash, entry.downloadLocation⟩)
          | .ok false => findCandidate ourVersion arch rest
      else findCandidate ourVersion arch rest

/-- An entry that `findCandidate` selects when it reaches it. -/
def goodCandidate (ourVersion arch : String) (p : String × FileEntry) : Bool :=
  entryMatch arch p.1 && decide ((entryVersion arch p.1).length ≤ 128) &&
    decide (versionNewerThanUs ourVersion (String.mk (entryVersion arch p.1)) = .ok true)

/-- An entry that `findCandidate` passes over without selecting or erroring. -/
def cleanSkip (ourVersion arch : String) (p : String × FileEntry) : Bool :=
  !entryMatch arch p.1 ||
    (decide ((entryVersion arch p.1).length ≤ 128) &&
      decide (versionNewerThanUs ourVersion (String.mk (entryVersion arch p.1)) = .ok false))

/-- First sample manifest entry: `pangolin-amd64-1.0.31.msi`. -/
def entryA : String × FileEntry :=
  ("pangolin-amd64-1.0.31.msi", ⟨List.replicate 32 0, ""⟩)

/-- Second sample manifest entry: `pangolin-amd64-1.0.32.msi`. -/
def entryB : String × FileEntry :=
  ("pangolin-amd64-1.0.32.msi", ⟨List.replicate 32 1, ""⟩)

/-- C3 (counterexample to the claim as stated). Running version
`1.0.30`; a manifest holding the two entries `pangolin-amd64-1.0.31.msi`
and `pangolin-amd64-1.0.32.msi`, both strictly newer.  The two lists are
permutations of one another — enumerations of the *same* manifest map —
yet `findCandidate` returns a different candidate on each, so the
selection is neither unique nor "the first matching entry in document
order": it follows Go's unspecified map iteration order. -/
theorem findCandidate_depends_on_enumeration_order :
    [entryA, entryB].Perm [entryB, entryA] ∧
      findCandidate "1.0.30" "amd64" [entryA, entryB] ≠
        findCandidate "1.0.30" "amd64" [entryB, entryA] :=
  ⟨List.Perm.swap entryB entryA [], by decide⟩

/-- C3 (amended). When the manifest contains exactly one selectable
entry `e` (its name matches `pangolin-<arch>-<ver>.msi`, its version is at
most 128 characters and strictly newer than the running version) and every
other entry is passed over cleanly, `findCandidate` returns `e` on *every*
enumeration of the map: with a unique match the selection is unique and
deterministic; with several matching newer entries it depends on the
unspecified map iteration order (see the counterexample). -/
theorem findCandidate_unique_match (ourVersion arch : String) (e : String × FileEntry) :
    ∀ l, e ∈ l → goodCandidate ourVersion arch e = true →
      (∀ p ∈ l, p = e ∨ cleanSkip ourVersion arch p = true) →
      findCandidate ourVersion arch l = .ok (some ⟨e.1, e.2.hash, e.2.downloadLocation⟩) := by
  intro l
  induction l with
  | nil => intro h; exact absurd h (List.not_mem_nil e)
  | cons a rest ih =>
      intro hmem hgood hall
      obtain ⟨name, entry⟩ := a
      by_cases hae : (name, entry) = e
      · subst hae
        unfold goodCandidate at hgood
        simp only [Bool.and_eq_true, decide_eq_true_eq] at hgood
        obtain ⟨⟨h1, h2⟩, h3⟩ := hgood
        simp only [findCandidate]
        rw [if_pos h1, if_neg (by omega), h3]
      · have hmem' : e ∈ rest := by
          rcases List.mem_cons.mp hmem with h | h
          · exact absurd h.symm hae
          · exact h
        have hrec := ih hmem' hgood (fun p hp => hall p (List.mem_cons_of_mem _ hp))
        have hskip : cleanSkip ourVersion arch (name, entry) = true := by
          rcases hall (name, entry) (List.mem_cons_self _ _) with h | h
          · exact absurd h hae
          · exact h
        unfold cleanSkip at hskip
        simp only [Bool.or_eq_true, Bool.not_eq_true', Bool.and_eq_true, decide_eq_true_eq]
          at hskip
        by_cases hmatch : entryMatch arch name = true
        · rcases hskip with h | ⟨_hlen, hfalse⟩
          · exact absurd hmatch (by simp [h])
          · simp only [findCandidate]
            rw [if_pos hmatch, if_neg (by omega), hfalse, hrec]
        · simp only [findCandidate]
          rw [if_neg hmatch, hrec]

/-- C3 witness. The amended theorem applied to a one-entry manifest:
running version `1.0.30`, single entry `pangolin-amd64-1.0.31.msi`. -/
theorem findCandidate_unique_match_witness :
    findCandidate "1.0.30" "amd64" [entryA] =
      .ok (some ⟨entryA.1, entryA.2.hash, entryA.2.downloadLocation⟩) := by
  refine findCandidate_unique_match "1.0.30" "amd64" entryA [entryA] ?_ ?_ ?_
  · exact List.mem_singleton.mpr rfl
  · decide
  · intro p hp
    exact Or.inl (List.mem_singleton.mp hp)

/-! ## `updater/signify.go`

`readFileList` parses and verifies the signed manifest.  Go's
`base64.StdEncoding.DecodeString` and `hex.DecodeString` are embedded
below; `ed25519.Verify` (an external cryptographic primitive) is a
parameter of the embedding, so the theorems hold for every verifier. -/

/-- Value of one base64 alphabet character (`A–Za–z0–9+/`). -/
def b64Val (c : Char) : Option Nat :=
  if 65 ≤ c.toNat ∧ c.toNat ≤ 90 then some (c.toNat - 65)
  else if 97 ≤ c.toNat ∧ c.toNat ≤ 122 then some (c.toNat - 71)
  else if 48 ≤ c.toNat ∧ c.toNat ≤ 57 then some (c.toNat + 4)
  else if c = '+' then some 62
  else if c = '/' then some 63
  else none

/-- Decode base64 4-character quanta (padding `=` only in the final
quantum, as `encoding/base64` enforces; trailing-bit junk is accepted, as
in the default `StdEncoding`). -/
def b64Quanta : List Char → Option (List Nat)
  | [] => some []
  | c1 :: c2 :: c3 :: c4 :: rest =>
      match b64Val c1, b64Val c2 with
      | some v1, some v2 =>
          if c3 = '=' then
            if c4 = '=' ∧ rest = [] then some [(v1 * 4 + v2 / 16) % 256]
            else none
          else
            match b64Val c3 with
            | some v3 =>
                if c4 = '=' then
                  if rest = [] then
                    some [(v1 * 4 + v2 / 16) % 256, (v2 % 16 * 16 + v3 / 4) % 256]
                  else none
                else
                  match b64Val c4 with
                  | some v4 =>
                      (b64Quanta rest).map
                        (fun tl => ((v1 * 4 + v2 / 16) % 256) :: ((v2 % 16 * 16 + v3 / 4) % 256) ::
                          ((v3 % 4 * 64 + v4) % 256) :: tl)
                  | none => none
            | none => none
      | _, _ => none
  | _ => none

/-- Go `base64.StdEncoding.DecodeString` (which skips CR and LF). -/
def base64Decode (s : List Char) : Option (List Nat) :=
  b64Quanta (s.filter (fun c => ¬(c = '\r' ∨ c = '\n')))

/-- Value of one hex digit (`hex.DecodeString` accepts both cases). -/
def hexVal (c : Char) : Option Nat :=
  if 48 ≤ c.toNat ∧ c.toNat ≤ 57 then some (c.toNat - 48)
  else if 97 ≤ c.toNat ∧ c.toNat ≤ 102 then some (c.toNat - 87)
  else if 65 ≤ c.toNat ∧ c.toNat ≤ 70 then some (c.toNat - 55)
  else none

/-- Go `hex.DecodeString` (whole string; odd length is an error). -/
def hexDecode : List Char → Option (List Nat)
  | [] => some []
  | c1 :: c2 :: rest =>
      match hexVal c1, hexVal c2 with
      | some h1, some h2 => (hexDecode rest).map (fun tl => (h1 * 16 + h2) :: tl)
      | _, _ => none
  | _ => none

/-- The embedded release public key of `updater/constants.go`. -/
def releasePublicKeyBase64 : String :=
  "RWQWK7GF/RR35J1NETi57nk9cbngz7sBDsCrC3yce2CcKfACMpIcpvKV"

/-- The decoded embedded public key (10-byte keyid followed by the 32-byte
Ed25519 key). -/
def publicKeyBytes : List Nat :=
  (base64Decode releasePublicKeyBase64.data).getD []

example : publicKeyBytes.length = 42 := by decide
example : publicKeyBytes.take 2 = [69, 100] := by decide

/-- Go map assignment `fileHashes[filename] = entry` on an association
list: replace the existing binding or append a new one. -/
def insertEntry (m : List (String × FileEntry)) (k : String) (v : FileEntry) :
    List (String × FileEntry) :=
  match m with
  | [] => [(k, v)]
  | (k', v') :: rest => if k' = k then (k, v) :: rest else (k', v') :: insertEntry rest k v

/-- Parse one `hash  filename[  download_location]` body line
(two-space separators, 32-byte BLAKE2b-256 hash in hex). -/
def parseHashLine (line : List Char) : Except String (String × FileEntry) :=
  match GoStr.splitN3 "  ".data line with
  | hashStr :: filename :: rest =>
      let downloadLocation := match rest with | [] => "" | dl :: _ => String.mk dl
      match hexDecode hashStr with
      | some h =>
          if h.length = 32 then .ok (String.mk filename, ⟨h, downloadLocation⟩)
          else .error "File hash is invalid hex or incorrect number of bytes"
      | none => .error "File hash is invalid hex or incorrect number of bytes"
  | _ => .error "File hash line has too few components"

/-- The body-parsing loop of `readFileList`: an empty *last* line is
skipped, any other unparsable line is an error. -/
def parseBodyLines (acc : List (String × FileEntry)) :
    List (List Char) → Except String (List (String × FileEntry))
  | [] => .ok acc
  | [l] =>
      if l.length = 0 then .ok acc
      else
        match parseHashLine l with
        | .ok (k, v) => .ok (insertEntry acc k v)
        | .error e => .error e
  | l :: rest =>
      match parseHashLine l with
      | .ok (k, v) => parseBodyLines (insertEntry acc k v) rest
      | .error e => .error e

/-- Go `readFileList` of `updater/signify.go`, parameterised by the Ed25519
verifier (public key bytes, message bytes, signature bytes).  The source's
early-error returns become the `else`/`none` arms here. -/
def readFileList (verify : List Nat → List Nat → List Nat → Bool) (input : List Char) :
    Except String (List (String × FileEntry)) :=
  match base64Decode releasePublicKeyBase64.data with
  | none => .error "Invalid public key"
  | some pk =>
      if pk.length = 32 + 10 ∧ pk.get? 0 = some 69 ∧ pk.get? 1 = some 100 then
        match GoStr.splitN3 ['\n'] input with
        | [line0, line1, line2] =>
            if GoStr.isPre "untrusted comment: ".data line0 then
              match base64Decode line1 with
              | none => .error "Signature input is not valid base64"
              | some signatureBytes =>
                  if signatureBytes.length = 64 + 10 ∧ signatureBytes.take 10 = pk.take 10 then
                    if verify (pk.drop 10) (line2.map Char.toNat) (signatureBytes.drop 10) then
                      match parseBodyLines [] (GoStr.splitAll ['\n'] line2) with
                      | .error e => .error e
                      | .ok fileHashes =>
                          if fileHashes.length = 0 then
                            .error "No file hashes found in signed input"
                          else .ok fileHashes
                    else .error "Signature is invalid"
                  else .error "Signature input bytes are incorrect length, type, or keyid"
            else .error "Signature input is missing untrusted comment"
        | _ => .error "Signature input has too few lines"
      else .error "Invalid public key"

/-- C2. Necessity of the manifest's well-formedness conditions: for
every verifier and every input, `readFileList` returns a file list *only*
when the input splits into exactly three lines, the first line starts with
`"untrusted comment: "`, the second line is base64 decoding to exactly the
Ed25519 signature size plus 10 bytes whose first 10 bytes equal the first
10 bytes of the embedded public key, and the body verifies under the
verifier against signature bytes 10..end.  Contrapositively, every input
violating any of these conditions yields an error and no file list. -/
theorem readFileList_ok_necessary
    (verify : List Nat → List Nat → List Nat → Bool) (input : List Char)
    (fl : List (String × FileEntry)) (h : readFileList verify input = .ok fl) :
    ∃ line0 line1 line2, GoStr.splitN3 ['\n'] input = [line0, line1, line2] ∧
      GoStr.isPre "untrusted comment: ".data line0 = true ∧
      ∃ sig, base64Decode line1 = some sig ∧
        sig.length = 64 + 10 ∧
        sig.take 10 = publicKeyBytes.take 10 ∧
        verify (publicKeyBytes.drop 10) (line2.map Char.toNat) (sig.drop 10) = true := by
  unfold readFileList at h
  split at h
  · exact Except.noConfusion h
  case _ pk hpk =>
    have hpkeq : pk = publicKeyBytes := by
      have : base64Decode releasePublicKeyBase64.data = some publicKeyBytes := by decide
      rw [this] at hpk
      exact (Option.some.inj hpk).symm
    subst hpkeq
    split at h
    · split at h
      case _ line0 line1 line2 hsplit =>
        split at h
        case isTrue hcomment =>
          split at h
          · exact Except.noConfusion h
          case _ sig hsig =>
            split at h
            case isTrue hsiglen =>
              split at h
              case isTrue hverify =>
                exact ⟨line0, line1, line2, hsplit, hcomment, sig, hsig,
                  hsiglen.1, hsiglen.2, hverify⟩
              case isFalse => exact Except.noConfusion h
            case isFalse => exact Except.noConfusion h
        case isFalse => exact Except.noConfusion h
      · exact Except.noConfusion h
    · exact Except.noConfusion h

/-- A well-formed sample manifest: comment line, base64 signature carrying
the embedded key's keyid followed by 64 zero signature bytes, and a body
line `hash  pangolin-amd64-1.0.31.msi`. -/
def sampleManifest : List Char :=
  ("untrusted comment: verify with pangolin.pub\n" ++
    "RWQWK7GF/RR35AAAAAAAAAAAAAAAAAAAAAAAAAAAAAAAAAAAAAAAAAAAAAAAAAAAAAAAAAAAAAAAAAAAAAAAAAAAAAAAAAAAAAA=\n" ++
    "00112233445566778899aabbccddeeff00112233445566778899aabbccddeeff  pangolin-amd64-1.0.31.msi\n").data

/-- The file list that `readFileList` produces from `sampleManifest`. -/
def sampleFileList : List (String × FileEntry) :=
  [("pangolin-amd64-1.0.31.msi",
    ⟨[0x00, 0x11, 0x22, 0x33, 0x44, 0x55, 0x66, 0x77, 0x88, 0x99, 0xaa, 0xbb,
      0xcc, 0xdd, 0xee, 0xff, 0x00, 0x11, 0x22, 0x33, 0x44, 0x55, 0x66, 0x77,
      0x88, 0x99, 0xaa, 0xbb, 0xcc, 0xdd, 0xee, 0xff], ""⟩)]

/-- C2 witness. The necessity theorem applied to the sample manifest
under the always-accepting verifier (the structural checks are what is
exercised; the signature bytes are zeros). -/
theorem readFileList_ok_necessary_witness :
    ∃ line0 line1 line2,
      GoStr.splitN3 ['\n'] sampleManifest = [line0, line1, line2] ∧
      GoStr.isPre "untrusted comment: ".data line0 = true ∧
      ∃ sig, base64Decode line1 = some sig ∧
        sig.length = 64 + 10 ∧
        sig.take 10 = publicKeyBytes.take 10 ∧
        (fun (_ _ _ : List Nat) => true) (publicKeyBytes.drop 10)
          (line2.map Char.toNat) (sig.drop 10) = true :=
  readFileList_ok_necessary (fun _ _ _ => true) sampleManifest sampleFileList (by decide)

end Updater

/-! ## Go maps keyed by string

Association-list model of `map[string]T` (the enumeration-order questions
are handled where they matter, in `findCandidate` above). -/

namespace GoMap

/-- Go `m[k]` with presence flag. -/
def get {β : Type} (m : List (String × β)) (k : String) : Option β :=
  match m with
  | [] => none
  | (k', v) :: rest => if k' = k then some v else get rest k

/-- Go `m[k] = v`. -/
def set {β : Type} (m : List (String × β)) (k : String) (v : β) : List (String × β) :=
  match m with
  | [] => [(k, v)]
  | (k', v') :: rest => if k' = k then (k, v) :: rest else (k', v') :: set rest k v

theorem get_set {β : Type} (m : List (String × β)) (k : String) (v : β) :
    get (set m k v) k = some v := by
  induction m with
  | nil => simp [get, set]
  | cons p rest ih =>
      obtain ⟨k', v'⟩ := p
      by_cases h : k' = k
      · simp [set, h, get]
      · simp [set, h, get, ih]

end GoMap

/-! ## `config/config.go` and `config/accounts.go` -/

namespace Config

/-- Go `config.Config` of `config/config.go`; Go pointer fields are `Option`. -/
structure AppConfig where
  dnsOverride : Option Bool
  dnsTunnel : Option Bool
  primaryDNS : Option String
  secondaryDNS : Option String
deriving DecidableEq

/-- Go `DefaultPrimaryDNS = "9.9.9.9"`. -/
def DefaultPrimaryDNS : String := "9.9.9.9"

/-- Go `GetDNSOverride`: stored value or default `true`. -/
def GetDNSOverride (c : AppConfig) : Bool :=
  match c.dnsOverride with
  | some v => v
  | none => true

/-- Go `GetDNSTunnel`: stored value or default `false`. -/
def GetDNSTunnel (c : AppConfig) : Bool :=
  match c.dnsTunnel with
  | some v => v
  | none => false

/-- Go `GetPrimaryDNS`: stored non-empty value or the default. -/
def GetPrimaryDNS (c : AppConfig) : String :=
  match c.primaryDNS with
  | some s => if s ≠ "" then s else DefaultPrimaryDNS
  | none => DefaultPrimaryDNS

/-- Go `GetSecondaryDNS`: stored value or the empty string. -/
def GetSecondaryDNS (c : AppConfig) : String :=
  match c.secondaryDNS with
  | some s => s
  | none => ""

/-- Go `config.Account` of `config/accounts.go`. -/
structure Account where
  userID : String
  email : String
  orgID : String
  username : String
  name : String
  hostname : String
deriving DecidableEq

/-- The in-memory state of `config.AccountManager` (the JSON file write in
`saveLocked` is outside the model and always succeeds here). -/
structure AccountManager where
  activeUserID : String
  accounts : List (String × Account)
deriving DecidableEq

/-- Go `AccountManager.AddAccount`: store the account under its user id
(`m.Accounts[account.UserID] = account`); the active user id is *not*
touched. -/
def AddAccount (m : AccountManager) (account : Account) : AccountManager :=
  { m with accounts := GoMap.set m.accounts account.userID account }

/-- Go `AccountManager.ActiveAccount`. -/
def ActiveAccount (m : AccountManager) : Except String Account :=
  if m.activeUserID = "" then .error "no active account"
  else
    match GoMap.get m.accounts m.activeUserID with
    | none => .error "active account not present in list"
    | some a => .ok a

/-- Go `AccountManager.SetActiveUser`. -/
def SetActiveUser (m : AccountManager) (userID : String) : Except String AccountManager :=
  match GoMap.get m.accounts userID with
  | none => .error "account does not exist"
  | some _ => .ok { m with activeUserID := userID }

/-- Go `AccountManager.SetUserOrganization` of `config/accounts.go`.  In the
source, `account, ok := m.Accounts[userID]` binds `account` to a *copy* of
the map value; `account.OrgID = orgID` mutates only that copy, which is
never stored back into `m.Accounts`, and `saveLocked` then persists the
unchanged map. -/
def SetUserOrganization (m : AccountManager) (userID orgID : String) :
    Except String AccountManager :=
  match GoMap.get m.accounts userID with
  | some account =>
      let _updatedCopy := { account with orgID := orgID }
      .ok m
  | none => .error "account does not exist"

end Config

/-! ## `auth/manager.go` — `SelectOrganization` -/

namespace Auth

/-- Go `AuthManager.SelectOrganization`, with the `CheckOrgAccess` REST call a
parameter.  The source returns `err` from the combined
`err != nil || !hasAccess` test, stores the org in `am.currentOrg`, and only
logs a `SetUserOrganization` failure.  Result: the selected org (if any)
and the account store after the call. -/
def SelectOrganization (checkOrgAccess : Except String Bool)
    (currentOrg : Option String) (store : Config.AccountManager)
    (currentUserId orgId : String) :
    Except String (Option String × Config.AccountManager) :=
  match checkOrgAccess with
  | .error e => .error e
  | .ok hasAccess =>
      if ¬hasAccess then .ok (currentOrg, store)
      else
        let store' :=
          match Config.SetUserOrganization store currentUserId orgId with
          | .ok s => s
          | .error _ => store
        .ok (some orgId, store')

end Auth

/-! ## Theorems about the account store (C7, C8) -/

/-- The C7 scenario store: one account `u1` with no org selected, active. -/
def c7Store : Config.AccountManager :=
  { activeUserID := "u1",
    accounts := [("u1",
      { userID := "u1", email := "a@b", orgID := "", username := "a",
        name := "A", hostname := "https://app.example.net" })] }

/-- C7 (the code bug, evaluated). `SetUserOrganization` reports success
but leaves the store untouched: after `SetUserOrganization u1 o1`, and
likewise after a successful `SelectOrganization` (access granted), account
`u1` still has `org_id = ""`, not `"o1"` — the mutated copy is never
written back to the map. -/
theorem setUserOrganization_not_persisted :
    Config.SetUserOrganization c7Store "u1" "o1" = .ok c7Store ∧
      Auth.SelectOrganization (.ok true) none c7Store "u1" "o1" = .ok (some "o1", c7Store) ∧
      (GoMap.get c7Store.accounts "u1").map Config.Account.orgID = some "" := by
  refine ⟨by decide, by decide, by decide⟩

/-- The C8 counterexample account. -/
def c8Account : Config.Account :=
  { userID := "u1", email := "a@b", orgID := "o1", username := "a",
    name := "A", hostname := "https://app.example.net" }

/-- C8 (counterexample to the claim as stated). Starting from the empty
store, `AddAccount(a); ActiveAccount()` does not return `a`: `AddAccount`
never sets the active user id, so `ActiveAccount` fails with
"no active account". -/
theorem addAccount_activeAccount_fails_on_empty_store :
    Config.ActiveAccount (Config.AddAccount ⟨"", []⟩ c8Account) = .error "no active account" := by
  decide

/-- C8 (amended). The round-trip law holds exactly when the starting
store's active user id already equals the account's (non-empty) user id:
then `AddAccount(a); ActiveAccount()` returns an account equal to `a`
under field-wise comparison.  (With a different or empty active user id it
returns another account or an error — see the counterexample.) -/
theorem addAccount_activeAccount_roundtrip (m : Config.AccountManager) (a : Config.Account)
    (hactive : m.activeUserID = a.userID) (hne : a.userID ≠ "") :
    Config.ActiveAccount (Config.AddAccount m a) = .ok a := by
  unfold Config.ActiveAccount Config.AddAccount
  simp only
  rw [if_neg (by rw [hactive]; exact hne), hactive, GoMap.get_set]

/-- C8 witness. The amended theorem applied to a store whose active
user id is already `u1`. -/
theorem addAccount_activeAccount_roundtrip_witness :
    Config.ActiveAccount (Config.AddAccount ⟨"u1", []⟩ c8Account) = .ok c8Account :=
  addAccount_activeAccount_roundtrip ⟨"u1", []⟩ c8Account (by decide) (by decide)

/-! ## `tunnel/build.go` and `tunnel/manager.go` -/

namespace Tunnel

/-- Go `tunnel.State` of `tunnel/build.go`. -/
inductive State
  | stopped
  | starting
  | registering
  | registered
  | running
  | reconnecting
  | stopping
  | invalid
  | error
deriving DecidableEq

/-- Go `tunnel.Config` of `tunnel/build.go`. -/
structure Config where
  name : String
  endpoint : String
  id : String
  secret : String
  mtu : Nat
  dns : String
  holepunch : Bool
  pingIntervalSeconds : Nat
  pingTimeoutSeconds : Nat
  userToken : String
  orgID : String
  interfaceName : String
  upstreamDNS : List String
  overrideDNS : Bool
  tunnelDNS : Bool
deriving DecidableEq

/-- Side effects and notifications the tunnel/manager code requests, in
order.  `notifyState` is a `notifyStateChange` callback invocation (relayed
by the Manager as a `TunnelStateChange` IPC event); `install`/`uninstall`
are the registered tunnel-service callbacks; `download` is the updater's
`DownloadVerifyAndExecute`. -/
inductive Effect
  | install (cfgName : String)
  | uninstall (name : String)
  | download
  | notifyState (s : State)
deriving DecidableEq

/-- The package-level mutable state of `tunnel/build.go`. -/
structure Globals where
  tunnelState : State
  currentTunnelName : String
deriving DecidableEq

/-- The service name `StopTunnel` uses: the stored current tunnel name, or
the fallback `"pangolin-tunnel"` when none was stored. -/
def stopName (g : Globals) : String :=
  if g.currentTunnelName = "" then "pangolin-tunnel" else g.currentTunnelName

/-- Go `tunnel.StartTunnel` of `tunnel/build.go`: store the name, publish
`Registering`, then install the worker service (the `json.Marshal` of the
plain config struct cannot fail and is folded into `install`, which is
keyed here by the config name that determines the service).  On install
failure the state is set back to `Stopped` and published. -/
def StartTunnel (install : String → Except String Unit) (cfg : Config) (g : Globals) :
    Except String Unit × Globals × List Effect :=
  let g1 : Globals := { g with tunnelState := .registering, currentTunnelName := cfg.name }
  match install cfg.name with
  | .error e =>
      (.error e, { g1 with tunnelState := .stopped },
        [.notifyState .registering, .install cfg.name, .notifyState .stopped])
  | .ok _ => (.ok (), g1, [.notifyState .registering, .install cfg.name])

/-- Go `tunnel.StopTunnel` of `tunnel/build.go`: publish `Stopping`, uninstall
the worker service, then — *whether or not the uninstall failed* — set and
publish `Stopped`, clear the stored name, and return the uninstall error. -/
def StopTunnel (uninstall : String → Except String Unit) (g : Globals) :
    Except String Unit × Globals × List Effect :=
  let res := uninstall (stopName g)
  (res, { tunnelState := .stopped, currentTunnelName := "" },
    [.notifyState .stopping, .uninstall (stopName g), .notifyState .stopped])

/-- C10. `StopTunnel` is not atomic on error: for every starting state
and every failing uninstall, the published sequence is still `Stopping`
then `Stopped`, the global tunnel state ends at `Stopped`, the stored
current tunnel name is cleared, and the uninstall error is returned; the
pre-call state is never restored. -/
theorem stopTunnel_not_atomic_on_error
    (uninstall : String → Except String Unit) (g : Globals) (e : String)
    (h : uninstall (stopName g) = .error e) :
    StopTunnel uninstall g =
      (.error e, { tunnelState := .stopped, currentTunnelName := "" },
        [.notifyState .stopping, .uninstall (stopName g), .notifyState .stopped]) := by
  unfold StopTunnel
  rw [h]

/-- C10 witness. A running tunnel `olm` whose service uninstall fails. -/
theorem stopTunnel_not_atomic_on_error_witness :
    StopTunnel (fun _ => .error "access denied") ⟨.running, "olm"⟩ =
      (.error "access denied", ⟨.stopped, ""⟩,
        [.notifyState .stopping, .uninstall "olm", .notifyState .stopped]) :=
  stopTunnel_not_atomic_on_error (fun _ => .error "access denied") ⟨.running, "olm"⟩
    "access denied" rfl

/-- The decoded `/status` response fields the polling loop looks at
(`OLMStatusResponse` of `tunnel/manager.go`). -/
structure OLMStatusResponse where
  connected : Bool
  registered : Bool
  terminated : Bool
deriving DecidableEq

/-- The mutex-protected fields of the UI-side `tunnel.Manager` that one
polling iteration reads and writes (`hasCallback`: whether a state-change
callback is registered). -/
structure MgrSt where
  currentState : State
  isConnected : Bool
  hasCallback : Bool
deriving DecidableEq

/-- What one polling iteration did: the manager state afterwards, the
write to the global tunnel state (`SetState`), the state passed to the
registered callback (if invoked), and whether `Disconnect` was invoked. -/
structure PollOut where
  mgr : MgrSt
  globalWrite : Option State
  callbackFired : Option State
  disconnectInvoked : Bool
deriving DecidableEq

/-- The state-update tail of the polling loop body: `SetState(newState)`,
update `currentState`/`isConnected`, fire the callback only on change. -/
def applyNewState (tm : MgrSt) (newState : State) : PollOut :=
  { mgr := { currentState := newState,
             isConnected := decide (newState = State.running),
             hasCallback := tm.hasCallback },
    globalWrite := some newState,
    callbackFired :=
      if tm.currentState ≠ newState ∧ tm.hasCallback then some newState else none,
    disconnectInvoked := false }

theorem applyNewState_callback {tm : MgrSt} {ns s : State}
    (hs : (applyNewState tm ns).callbackFired = some s) :
    tm.currentState ≠ s ∧ (applyNewState tm ns).mgr.currentState = s := by
  unfold applyNewState at hs ⊢
  simp only at hs ⊢
  split at hs
  case isTrue h =>
    rw [Option.some.injEq] at hs
    subst hs
    exact ⟨h.1, rfl⟩
  case isFalse h => exact Option.noConfusion hs

/-- One iteration of the polling loop of `Manager.StartStatusPolling` on a
successfully decoded status: `terminated` → `Disconnect()` and nothing
else; else `connected` → `Running`; else `registered` → `Registered`; else
keep the current state (no state write, no callback). -/
def pollStep (tm : MgrSt) (status : OLMStatusResponse) : PollOut :=
  if status.terminated then ⟨tm, none, none, true⟩
  else if status.connected then applyNewState tm .running
  else if status.registered then applyNewState tm .registered
  else ⟨tm, none, none, false⟩

/-- C6. The polling derivation rules: `terminated` invokes `Disconnect`
(and changes nothing else); otherwise `connected` yields `Running` and
`registered` yields `Registered`, each written both to the manager state
and to the global tunnel state; otherwise everything is kept unchanged;
and the registered callback fires only when the state actually changed,
with the new state. -/
theorem pollStep_follows_status (tm : MgrSt) (status : OLMStatusResponse) :
    (status.terminated = true → pollStep tm status = ⟨tm, none, none, true⟩) ∧
    (status.terminated = false → status.connected = true →
      (pollStep tm status).mgr.currentState = .running ∧
        (pollStep tm status).globalWrite = some .running) ∧
    (status.terminated = false → status.connected = false → status.registered = true →
      (pollStep tm status).mgr.currentState = .registered ∧
        (pollStep tm status).globalWrite = some .registered) ∧
    (status.terminated = false → status.connected = false → status.registered = false →
      pollStep tm status = ⟨tm, none, none, false⟩) ∧
    (∀ s, (pollStep tm status).callbackFired = some s →
      tm.currentState ≠ s ∧ (pollStep tm status).mgr.currentState = s) := by
  obtain ⟨c, r, t⟩ := status
  refine ⟨?_, ?_, ?_, ?_, ?_⟩
  · cases t <;> simp [pollStep]
  · cases t <;> cases c <;> simp [pollStep, applyNewState]
  · cases t <;> cases c <;> cases r <;> simp [pollStep, applyNewState]
  · cases t <;> cases c <;> cases r <;> simp [pollStep, applyNewState]
  · intro s hs
    cases t with
    | true =>
        rw [show pollStep tm ⟨c, r, true⟩ = ⟨tm, none, none, true⟩ from rfl] at hs
        exact Option.noConfusion hs
    | false =>
        cases c with
        | true =>
            have hs' : (applyNewState tm .running).callbackFired = some s := hs
            exact applyNewState_callback hs'
        | false =>
            cases r with
            | true =>
                have hs' : (applyNewState tm .registered).callbackFired = some s := hs
                exact applyNewState_callback hs'
            | false =>
                rw [show pollStep tm ⟨false, false, false⟩ = ⟨tm, none, none, false⟩ from rfl]
                  at hs
                exact Option.noConfusion hs

/-- C6 witness. A terminated status on a running manager invokes
`Disconnect` and leaves the state alone; a `connected` status from
`Registered` moves to `Running` and writes the global state. -/
theorem pollStep_follows_status_witness :
    pollStep ⟨.running, true, true⟩ ⟨false, false, true⟩ = ⟨⟨.running, true, true⟩, none, none, true⟩ ∧
      (pollStep ⟨.registered, false, true⟩ ⟨true, false, false⟩).mgr.currentState = .running ∧
      (pollStep ⟨.registered, false, true⟩ ⟨true, false, false⟩).globalWrite = some .running :=
  ⟨(pollStep_follows_status ⟨.running, true, true⟩ ⟨false, false, true⟩).1 rfl,
    ((pollStep_follows_status ⟨.registered, false, true⟩ ⟨true, false, false⟩).2.1 rfl rfl).1,
    ((pollStep_follows_status ⟨.registered, false, true⟩ ⟨true, false, false⟩).2.1 rfl rfl).2⟩

/-- Go `api.Org` as `buildConfig` uses it. -/
structure Org where
  id : String
  orgName : String
deriving DecidableEq

/-- The dependencies `Manager.buildConfig` reads: the account manager's
`ActiveAccount()` result, the secret manager lookups, the auth manager's
current org and current user id, and the config store. -/
structure Deps where
  activeAccount : Except String PangolinSpec.Config.Account
  getSessionToken : String → Option String
  currentOrg : Option Org
  currentUserId : String
  getOlmId : String → Option String
  getOlmSecret : String → Option String
  appConfig : PangolinSpec.Config.AppConfig

/-- Go `Manager.buildConfig` of `tunnel/manager.go`: compose the tunnel
configuration from account, secrets, current org and DNS settings
(upstream entries get `":53"` appended; an empty secondary contributes no
entry; `mtu=1280`, `holepunch=true`, ping interval/timeout 5 s,
`name="olm"`, `interface_name="Pangolin"`). -/
def buildConfig (tm : Deps) : Except String Config :=
  match tm.activeAccount with
  | .error e => .error e
  | .ok activeAccount =>
      match tm.getSessionToken activeAccount.userID with
      | none => .error "session token not found"
      | some userToken =>
          if userToken = "" then .error "session token not found"
          else
            match tm.currentOrg with
            | none => .error "no organization selected"
            | some currentOrg =>
                match tm.getOlmId tm.currentUserId with
                | none => .error "OLM ID not found"
                | some olmId =>
                    if olmId = "" then .error "OLM ID not found"
                    else
                      match tm.getOlmSecret tm.currentUserId with
                      | none => .error "OLM secret not found"
                      | some olmSecret =>
                          if olmSecret = "" then .error "OLM secret not found"
                          else
                            let primaryDNS := PangolinSpec.Config.GetPrimaryDNS tm.appConfig
                            let secondaryDNS := PangolinSpec.Config.GetSecondaryDNS tm.appConfig
                            let upstreamDNS :=
                              [primaryDNS ++ ":53"] ++
                                (if secondaryDNS ≠ "" then [secondaryDNS ++ ":53"] else [])
                            .ok { name := "olm",
                                  endpoint := activeAccount.hostname,
                                  id := olmId,
                                  secret := olmSecret,
                                  mtu := 1280,
                                  dns := primaryDNS,
                                  holepunch := true,
                                  pingIntervalSeconds := 5,
                                  pingTimeoutSeconds := 5,
                                  userToken := userToken,
                                  orgID := currentOrg.id,
                                  interfaceName := "Pangolin",
                                  upstreamDNS := upstreamDNS,
                                  overrideDNS := PangolinSpec.Config.GetDNSOverride tm.appConfig,
                                  tunnelDNS := PangolinSpec.Config.GetDNSTunnel tm.appConfig }

/-- The C5 scenario dependencies: account on `https://app.example.net`,
org `o1` selected, session token and OLM credentials present,
config store `primary_dns="1.1.1.1"`, no secondary, `dns_override=true`,
`dns_tunnel=false`. -/
def c5Deps : Deps :=
  { activeAccount := .ok
      { userID := "u1", email := "a@b", orgID := "o1", username := "a",
        name := "A", hostname := "https://app.example.net" },
    getSessionToken := fun uid => if uid = "u1" then some "T1" else none,
    currentOrg := some ⟨"o1", "Org1"⟩,
    currentUserId := "u1",
    getOlmId := fun uid => if uid = "u1" then some "olm-1" else none,
    getOlmSecret := fun uid => if uid = "u1" then some "s3cret" else none,
    appConfig :=
      { dnsOverride := some true, dnsTunnel := some false,
        primaryDNS := some "1.1.1.1", secondaryDNS := none } }

/-- C5. In the connect scenario, `buildConfig` returns exactly the
claimed configuration: `dns="1.1.1.1"`, `upstream_dns=["1.1.1.1:53"]`
(`":53"` appended, no entry for the empty secondary), `org_id="o1"`,
`endpoint="https://app.example.net"`, `mtu=1280`, `holepunch=true`,
ping interval/timeout 5, `interface_name="Pangolin"`, `override_dns=true`,
`tunnel_dns=false`. -/
theorem buildConfig_connect_scenario :
    buildConfig c5Deps = .ok
      { name := "olm",
        endpoint := "https://app.example.net",
        id := "olm-1",
        secret := "s3cret",
        mtu := 1280,
        dns := "1.1.1.1",
        holepunch := true,
        pingIntervalSeconds := 5,
        pingTimeoutSeconds := 5,
        userToken := "T1",
        orgID := "o1",
        interfaceName := "Pangolin",
        upstreamDNS := ["1.1.1.1:53"],
        overrideDNS := true,
        tunnelDNS := false } := by
  decide

end Tunnel

/-! ## SHA-256 (`crypto/sha256`)

An executable SHA-256 over byte lists (`Nat` words with explicit
`% 2^32`), needed because `computePlatformFingerprint` returns a SHA-256
hex digest. -/

namespace SHA256

/-- Truncate to a 32-bit word. -/
def w32 (n : Nat) : Nat := n % 4294967296

/-- Rotate a 32-bit word right by `n`. -/
def rotr (n x : Nat) : Nat := w32 ((x >>> n) ||| (x <<< (32 - n)))

/-- The σ₀ of the message schedule. -/
def s0 (x : Nat) : Nat := rotr 7 x ^^^ rotr 18 x ^^^ (x >>> 3)

/-- The σ₁ of the message schedule. -/
def s1 (x : Nat) : Nat := rotr 17 x ^^^ rotr 19 x ^^^ (x >>> 10)

/-- The Σ₀ of the compression function. -/
def bigS0 (x : Nat) : Nat := rotr 2 x ^^^ rotr 13 x ^^^ rotr 22 x

/-- The Σ₁ of the compression function. -/
def bigS1 (x : Nat) : Nat := rotr 6 x ^^^ rotr 11 x ^^^ rotr 25 x

/-- Go `Ch(x,y,z)` (complement as xor with `2^32 - 1`). -/
def chFn (x y z : Nat) : Nat := (x &&& y) ^^^ ((x ^^^ 4294967295) &&& z)

/-- Go `Maj(x,y,z)`. -/
def majFn (x y z : Nat) : Nat := (x &&& y) ^^^ (x &&& z) ^^^ (y &&& z)

/-- The round constants. -/
def kConst : List Nat :=
  [1116352408, 1899447441, 3049323471, 3921009573, 961987163,
   1508970993, 2453635748, 2870763221, 3624381080, 310598401,
   607225278, 1426881987, 1925078388, 2162078206, 2614888103,
   3248222580, 3835390401, 4022224774, 264347078, 604807628,
   770255983, 1249150122, 1555081692, 1996064986, 2554220882,
   2821834349, 2952996808, 3210313671, 3336571891, 3584528711,
   113926993, 338241895, 666307205, 773529912, 1294757372,
   1396182291, 1695183700, 1986661051, 2177026350, 2456956037,
   2730485921, 2820302411, 3259730800, 3345764771, 3516065817,
   3600352804, 4094571909, 275423344, 430227734, 506948616,
   659060556, 883997877, 958139571, 1322822218, 1537002063,
   1747873779, 1955562222, 2024104815, 2227730452, 2361852424,
   2428436474, 2756734187, 3204031479, 3329325298]

/-- The initial hash values. -/
def h0 : List Nat :=
  [1779033703, 3144134277, 1013904242, 2773480762,
   1359893119, 2600822924, 528734635, 1541459225]

/-- A `Nat` as 8 big-endian bytes. -/
def beBytes8 (n : Nat) : List Nat :=
  [n >>> 56 % 256, n >>> 48 % 256, n >>> 40 % 256, n >>> 32 % 256,
   n >>> 24 % 256, n >>> 16 % 256, n >>> 8 % 256, n % 256]

/-- A 32-bit word as 4 big-endian bytes. -/
def beBytes4 (n : Nat) : List Nat :=
  [n >>> 24 % 256, n >>> 16 % 256, n >>> 8 % 256, n % 256]

/-- Merkle–Damgård padding: `0x80`, zeros to 56 mod 64, 64-bit bit length. -/
def padMsg (msg : List Nat) : List Nat :=
  msg ++ [128] ++ List.replicate ((119 - msg.length % 64) % 64) 0 ++ beBytes8 (msg.length * 8)

/-- The 64-byte blocks of the padded message (fuelled recursion). -/
def toBlocksAux : Nat → List Nat → List (List Nat)
  | 0, _ => []
  | _, [] => []
  | fuel + 1, bytes => bytes.take 64 :: toBlocksAux fuel (bytes.drop 64)

/-- The 64-byte blocks of the padded message. -/
def toBlocks (bytes : List Nat) : List (List Nat) := toBlocksAux bytes.length bytes

/-- Big-endian word value of a byte list. -/
def beWord (b : List Nat) : Nat := b.foldl (fun acc x => acc * 256 + x) 0

/-- A 64-byte block as 16 big-endian 32-bit words (fuelled recursion). -/
def blockWordsAux : Nat → List Nat → List Nat
  | 0, _ => []
  | _, [] => []
  | fuel + 1, bytes => beWord (bytes.take 4) :: blockWordsAux fuel (bytes.drop 4)

/-- A 64-byte block as 16 big-endian 32-bit words. -/
def blockWords (bytes : List Nat) : List Nat := blockWordsAux bytes.length bytes

/-- Append the next scheduled word. -/
def extendStep (ws : List Nat) : List Nat :=
  let t := ws.length
  ws ++ [w32 (ws.getD (t - 16) 0 + s0 (ws.getD (t - 15) 0) +
    ws.getD (t - 7) 0 + s1 (ws.getD (t - 2) 0))]

/-- Extend the schedule `n` times. -/
def extendN : Nat → List Nat → List Nat
  | 0, ws => ws
  | n + 1, ws => extendN n (extendStep ws)

/-- One compression round on the state `[a,b,c,d,e,f,g,h]` with the
scheduled word and round constant. -/
def roundStep (st : List Nat) (wk : Nat × Nat) : List Nat :=
  match st with
  | [a, b, c, d, e, f, g, h] =>
      let t1 := w32 (h + bigS1 e + chFn e f g + wk.2 + wk.1)
      let t2 := w32 (bigS0 a + majFn a b c)
      [w32 (t1 + t2), a, b, c, w32 (d + t1), e, f, g]
  | other => other

/-- Compress one block into the hash state. -/
def compressBlock (hs : List Nat) (block : List Nat) : List Nat :=
  let ws := extendN 48 (blockWords block)
  let st := (ws.zip kConst).foldl roundStep hs
  (hs.zip st).map (fun p => w32 (p.1 + p.2))

/-- SHA-256 of a byte list, as 32 bytes. -/
def sha256Bytes (msg : List Nat) : List Nat :=
  (((toBlocks (padMsg msg)).foldl compressBlock h0).map beBytes4).flatten

/-- A lowercase hex digit. -/
def hexChar (n : Nat) : Char :=
  if n < 10 then Char.ofNat (48 + n) else Char.ofNat (87 + n)

/-- Lowercase hex of a byte list. -/
def hexOfBytes (bs : List Nat) : List Char :=
  bs.foldr (fun b acc => hexChar (b / 16) :: hexChar (b % 16) :: acc) []

/-- Go `hex.EncodeToString(sha256.Sum256([]byte(s)))` (lowercase hex). -/
def sha256hex (s : String) : String :=
  String.mk (hexOfBytes (sha256Bytes (s.data.map Char.toNat)))

example :
    sha256hex "abc" =
      "ba7816bf8f01cfea414140de5dae2223b00361a396177a9cb410ff61f20015ad" := by decide

example :
    sha256hex "" =
      "e3b0c44298fc1c149afbf4c8996fb92427ae41e4649b934ca495991b7852b855" := by decide

end SHA256

/-! ## The `fingerprint` package — `computePlatformFingerprint` -/

namespace Fingerprint

/-- ASCII `unicode.ToLower`. -/
def toLowerCh (c : Char) : Char :=
  if 65 ≤ c.toNat ∧ c.toNat ≤ 90 then Char.ofNat (c.toNat + 32) else c

/-- ASCII `unicode.IsSpace`. -/
def isSpaceCh (c : Char) : Bool :=
  c.toNat = 32 || (9 ≤ c.toNat && c.toNat ≤ 13)

/-- Go `strings.TrimSpace`. -/
def trimSpaceFn (s : List Char) : List Char :=
  ((s.dropWhile isSpaceCh).reverse.dropWhile isSpaceCh).reverse

/-- Go `strings.Fields`: maximal runs of non-space characters.  `cur` is the
current word, reversed. -/
def wordsAux (cur : List Char) : List Char → List (List Char)
  | [] => if cur.isEmpty then [] else [cur.reverse]
  | c :: rest =>
      if isSpaceCh c then
        if cur.isEmpty then wordsAux [] rest else cur.reverse :: wordsAux [] rest
      else wordsAux (c :: cur) rest

/-- Go `strings.Fields`. -/
def fieldsOf (s : List Char) : List (List Char) := wordsAux [] s

/-- Go `normalize` of the fingerprint package:
`strings.Join(strings.Fields(strings.ToLower(strings.TrimSpace(s))), " ")`. -/
def normalize (s : String) : String :=
  String.mk (List.intercalate [' '] (fieldsOf ((trimSpaceFn s.data).map toLowerCh)))

example : normalize "  GenuineIntel " = "genuineintel" := by decide
example : normalize "Intel(R)   Core  TM" = "intel(r) core tm" := by decide

/-- Go `strings.Join(parts, "|")`. -/
def joinPipe (parts : List String) : String :=
  String.mk (List.intercalate ['|'] (parts.map String.data))

/-- The registry values `cpuFingerprint` and `dmiFingerprint` read:
`cpuKeyOk`/`dmiKeyOk` say whether the registry key opened, each value is
`some` when `GetStringValue` succeeded. -/
structure RegistryView where
  cpuKeyOk : Bool
  vendorIdentifier : Option String
  processorNameString : Option String
  identifier : Option String
  dmiKeyOk : Bool
  systemManufacturer : Option String
  systemProductName : Option String
  systemSKU : Option String
  baseBoardManufacturer : Option String
  baseBoardProduct : Option String

/-- One optional `key=value` part of the CPU section (no emptiness check
in the source). -/
def cpuRead : Option String → String → List String
  | some s, key => [key ++ "=" ++ normalize s]
  | none, _ => []

/-- Go `cpuFingerprint`: empty when the registry key cannot be opened. -/
def cpuFingerprint (r : RegistryView) : String :=
  if r.cpuKeyOk then
    joinPipe (cpuRead r.vendorIdentifier "vendor" ++
      cpuRead r.processorNameString "model_name" ++
      cpuRead r.identifier "identifier")
  else ""

/-- One optional `key=value` part of the DMI section (the source's `read`
closure skips values that are absent *or empty*). -/
def dmiRead : Option String → String → List String
  | some s, key => if s ≠ "" then [key ++ "=" ++ normalize s] else []
  | none, _ => []

/-- Go `dmiFingerprint`: empty when the registry key cannot be opened. -/
def dmiFingerprint (r : RegistryView) : String :=
  if r.dmiKeyOk then
    joinPipe (dmiRead r.systemManufacturer "sys_vendor" ++
      dmiRead r.systemProductName "product_name" ++
      dmiRead r.systemSKU "sku" ++
      dmiRead r.baseBoardManufacturer "board_vendor" ++
      dmiRead r.baseBoardProduct "board_name")
  else ""

/-- Go `computePlatformFingerprint`: collect `[runtime.GOOS, runtime.GOARCH,
cpuFingerprint(), dmiFingerprint()]` (`GOOS = "windows"` under the windows
build tag; `GOARCH` is the parameter), *filter out the empty parts*, join
the rest with `"|"` and hash. -/
def computePlatformFingerprint (goarch : String) (r : RegistryView) : String :=
  let parts := ["windows", goarch, cpuFingerprint r, dmiFingerprint r]
  let out := parts.filter (fun p => p ≠ "")
  SHA256.sha256hex (joinPipe out)

/-- The C9 counterexample registry view: the CPU key is missing, the DMI
section has only a product name. -/
def c9Reg : RegistryView :=
  { cpuKeyOk := false, vendorIdentifier := none, processorNameString := none,
    identifier := none,
    dmiKeyOk := true, systemManufacturer := none, systemProductName := some "X1",
    systemSKU := none, baseBoardManufacturer := none, baseBoardProduct := none }

/-- C9 (counterexample to the claim as stated). With a missing CPU
section, the hashed input is `"windows|amd64|product_name=x1"`: the empty
section is *dropped together with its separator*, it does not "contribute
an empty string to the joined input" (which would hash
`"windows|amd64||product_name=x1"`), and the two digests differ. -/
theorem computePlatformFingerprint_drops_empty_sections :
    cpuFingerprint c9Reg = "" ∧
      computePlatformFingerprint "amd64" c9Reg =
        SHA256.sha256hex "windows|amd64|product_name=x1" ∧
      computePlatformFingerprint "amd64" c9Reg ≠
        SHA256.sha256hex "windows|amd64||product_name=x1" := by
  refine ⟨by decide, by decide, by decide⟩

/-- Two optional registry values are case/whitespace variants of one
another: both absent, or both present with the same normalization and the
same emptiness (the DMI section tests emptiness *before* normalizing). -/
def valEquiv : Option String → Option String → Prop
  | none, none => True
  | some a, some b => normalize a = normalize b ∧ (a = "" ↔ b = "")
  | _, _ => False

theorem cpuRead_congr {a b : Option String} (h : valEquiv a b) (key : String) :
    cpuRead a key = cpuRead b key := by
  match a, b with
  | none, none => rfl
  | some x, some y =>
      obtain ⟨hn, _⟩ := h
      simp only [cpuRead, hn]
  | none, some y => exact absurd h (by simp [valEquiv])
  | some x, none => exact absurd h (by simp [valEquiv])

theorem dmiRead_congr {a b : Option String} (h : valEquiv a b) (key : String) :
    dmiRead a key = dmiRead b key := by
  match a, b with
  | none, none => rfl
  | some x, some y =>
      obtain ⟨hn, hiff⟩ := h
      simp only [dmiRead]
      by_cases hx : x = ""
      · rw [if_neg (fun hne => hne hx), if_neg (fun hne => hne (hiff.mp hx))]
      · rw [if_pos hx, if_pos (fun hy => hx (hiff.mpr hy)), hn]
  | none, some y => exact absurd h (by simp [valEquiv])
  | some x, none => exact absurd h (by simp [valEquiv])

/-- C9 (amended). The fingerprint hashes the pipe-join of the
*non-empty* sections (missing sections are omitted, separator included —
see the counterexample); it is a pure function of the registry view (same
inputs, same output), and it is unchanged under case or whitespace
variation of the contributing registry values, provided the variation
keeps present values present and empty values empty: every value enters
the hash only through `normalize`. -/
theorem computePlatformFingerprint_normalization_invariant
    (goarch : String) (r r' : RegistryView)
    (hck : r.cpuKeyOk = r'.cpuKeyOk)
    (h1 : valEquiv r.vendorIdentifier r'.vendorIdentifier)
    (h2 : valEquiv r.processorNameString r'.processorNameString)
    (h3 : valEquiv r.identifier r'.identifier)
    (hdk : r.dmiKeyOk = r'.dmiKeyOk)
    (h4 : valEquiv r.systemManufacturer r'.systemManufacturer)
    (h5 : valEquiv r.systemProductName r'.systemProductName)
    (h6 : valEquiv r.systemSKU r'.systemSKU)
    (h7 : valEquiv r.baseBoardManufacturer r'.baseBoardManufacturer)
    (h8 : valEquiv r.baseBoardProduct r'.baseBoardProduct) :
    computePlatformFingerprint goarch r = computePlatformFingerprint goarch r' := by
  have hcpu : cpuFingerprint r = cpuFingerprint r' := by
    unfold cpuFingerprint
    rw [hck, cpuRead_congr h1, cpuRead_congr h2, cpuRead_congr h3]
  have hdmi : dmiFingerprint r = dmiFingerprint r' := by
    unfold dmiFingerprint
    rw [hdk, dmiRead_congr h4, dmiRead_congr h5, dmiRead_congr h6,
      dmiRead_congr h7, dmiRead_congr h8]
  unfold computePlatformFingerprint
  rw [hcpu, hdmi]

/-- A registry view with raw mixed-case, extra-whitespace values. -/
def c9RegNoisy : RegistryView :=
  { cpuKeyOk := true, vendorIdentifier := some "  GenuineIntel ",
    processorNameString := some "Intel(R)   Core  TM", identifier := none,
    dmiKeyOk := true, systemManufacturer := some "LENOVO", systemProductName := some "X1",
    systemSKU := none, baseBoardManufacturer := none, baseBoardProduct := none }

/-- The same registry view with the values already lowercased and
whitespace-collapsed. -/
def c9RegClean : RegistryView :=
  { cpuKeyOk := true, vendorIdentifier := some "genuineintel",
    processorNameString := some "intel(r) core tm", identifier := none,
    dmiKeyOk := true, systemManufacturer := some "lenovo", systemProductName := some "x1",
    systemSKU := none, baseBoardManufacturer := none, baseBoardProduct := none }

/-- C9 witness. The invariance theorem applied to the noisy and clean
views: both hash to the same fingerprint. -/
theorem computePlatformFingerprint_normalization_invariant_witness :
    computePlatformFingerprint "amd64" c9RegNoisy =
      computePlatformFingerprint "amd64" c9RegClean :=
  computePlatformFingerprint_normalization_invariant "amd64" c9RegNoisy c9RegClean
    rfl ⟨by decide, by decide⟩ ⟨by decide, by decide⟩ trivial rfl
    ⟨by decide, by decide⟩ ⟨by decide, by decide⟩ trivial trivial trivial

end Fingerprint

/-! ## The `managers` IPC server (`ManagerService.ServeConn`)

One Manager↔UI connection: the decoded request frames come in as a list,
the emitted response frames and the requested side effects come out as
lists.  `elevatedToken` is the UI's elevated token (`0` when the UI did
not present one).  The updater's `DownloadVerifyAndExecute` appears as the
`download` effect; `UpdateProgress` events originate only from the
progress channel of a started download, so a trace without `download` has
no `UpdateProgress` event either. -/

namespace Managers

/-- Modelled from the spec: the `managers.UpdateState` enumeration
(`{ Idle, Checking, FoundUpdate, NoUpdate, DisabledUnofficialBuild,
DownloadInProgress }`).  Its Go declaration is not under `src/` — only its
uses are — and none of the checked properties depends on the values. -/
inductive UpdateState
  | idle
  | checking
  | foundUpdate
  | noUpdate
  | disabledUnofficialBuild
  | downloadInProgress
deriving DecidableEq

/-- One decoded request frame: the `MethodType` discriminator together
with the method's decoded arguments.  `unknown` is the `default:` case of
the dispatch switch, which closes the connection. -/
inductive Request
  | quit (stopTunnelsOnQuit : Bool)
  | updateState
  | update
  | startTunnel (cfg : Tunnel.Config)
  | stopTunnelReq
  | unknown
deriving DecidableEq

/-- One encoded response value. -/
inductive Resp
  | b (x : Bool)
  | s (x : String)
  | u (x : UpdateState)
deriving DecidableEq

/-- The Manager-side mutable state `ServeConn` touches: the `haveQuit`
flag, the authoritative update state, the `tunnel` package globals and the
active-tunnels set. -/
structure SrvState where
  haveQuit : Bool
  updateState : UpdateState
  tunnels : Tunnel.Globals
  activeTunnels : List String
deriving DecidableEq

/-- The service-install callbacks registered with the `tunnel` package
(`InstallTunnel` / `UninstallTunnel` of the managers package). -/
structure SrvCtx where
  install : String → Except String Unit
  uninstall : String → Except String Unit

/-- Add a name to the active-tunnels set. -/
def insertName (l : List String) (n : String) : List String :=
  if n ∈ l then l else l ++ [n]

/-- Remove a name from the active-tunnels set. -/
def removeName (l : List String) (n : String) : List String :=
  l.filter (fun m => m ≠ n)

/-- Go `ManagerService.Quit`: the second quit returns `already_quit=true`;
the first sets the flag and, when `stop_tunnels` is set, uninstalls every
active tunnel (failures only logged).  The returned error is always nil. -/
def mgrQuit (stopTunnelsOnQuit : Bool) (st : SrvState) :
    (Bool × String) × SrvState × List Tunnel.Effect :=
  if st.haveQuit then ((true, ""), st, [])
  else
    let st' := { st with haveQuit := true }
    if stopTunnelsOnQuit then
      ((false, ""), st', st.activeTunnels.map (fun n => .uninstall n))
    else ((false, ""), st', [])

/-- Go `ManagerService.Update`: *the only elevation check in the dispatch*.
With a zero elevated token it returns immediately — no download, hence no
`UpdateProgress` events, but also no reply of any kind (the `Update`
method writes no response frame even when elevated).  With a token it
starts `DownloadVerifyAndExecute` under that token. -/
def mgrUpdate (elevatedToken : Nat) (st : SrvState) : SrvState × List Tunnel.Effect :=
  if elevatedToken = 0 then (st, [])
  else (st, [.download])

/-- Go `ManagerService.StartTunnel`: run `tunnel.StartTunnel`; on success add
the config name to the active set and notify the current state.  No
elevation check. -/
def mgrStartTunnel (ctx : SrvCtx) (cfg : Tunnel.Config) (st : SrvState) :
    String × SrvState × List Tunnel.Effect :=
  match Tunnel.StartTunnel ctx.install cfg st.tunnels with
  | (.error e, g', evs) => (e, { st with tunnels := g' }, evs)
  | (.ok _, g', evs) =>
      ("", { st with tunnels := g', activeTunnels := insertName st.activeTunnels cfg.name },
        evs ++ [.notifyState g'.tunnelState])

/-- Go `ManagerService.StopTunnel`: run `tunnel.StopTunnel`; on success read
`tunnel.GetTunnelName()` — which `StopTunnel` has already cleared, so the
active-tunnels entry is never actually removed — and notify the current
state.  No elevation check. -/
def mgrStopTunnel (ctx : SrvCtx) (st : SrvState) :
    String × SrvState × List Tunnel.Effect :=
  match Tunnel.StopTunnel ctx.uninstall st.tunnels with
  | (.error e, g', evs) => (e, { st with tunnels := g' }, evs)
  | (.ok _, g', evs) =>
      let tunnelName := g'.currentTunnelName
      let active :=
        if tunnelName ≠ "" then removeName st.activeTunnels tunnelName else st.activeTunnels
      ("", { st with tunnels := g', activeTunnels := active },
        evs ++ [.notifyState g'.tunnelState])

/-- Go `ManagerService.ServeConn`: dispatch the decoded request frames in
order, accumulating response frames and side effects; an unknown method
type ends the loop. -/
def serveConn (ctx : SrvCtx) (elevatedToken : Nat) (st : SrvState) :
    List Request → SrvState × List Resp × List Tunnel.Effect
  | [] => (st, [], [])
  | .quit stopT :: rest =>
      let ((alreadyQuit, err), st', effs) := mgrQuit stopT st
      let (stFin, resps, effs') := serveConn ctx elevatedToken st' rest
      (stFin, .b alreadyQuit :: .s err :: resps, effs ++ effs')
  | .updateState :: rest =>
      let (stFin, resps, effs) := serveConn ctx elevatedToken st rest
      (stFin, .u st.updateState :: resps, effs)
  | .update :: rest =>
      let (st', effs) := mgrUpdate elevatedToken st
      let (stFin, resps, effs') := serveConn ctx elevatedToken st' rest
      (stFin, resps, effs ++ effs')
  | .startTunnel cfg :: rest =>
      let (err, st', effs) := mgrStartTunnel ctx cfg st
      let (stFin, resps, effs') := serveConn ctx elevatedToken st' rest
      (stFin, .s err :: resps, effs ++ effs')
  | .stopTunnelReq :: rest =>
      let (err, st', effs) := mgrStopTunnel ctx st
      let (stFin, resps, effs') := serveConn ctx elevatedToken st' rest
      (stFin, .s err :: resps, effs ++ effs')
  | .unknown :: _ => (st, [], [])

/-- Context with always-succeeding service install/uninstall. -/
def c1Ctx : SrvCtx := { install := fun _ => .ok (), uninstall := fun _ => .ok () }

/-- Fresh manager state. -/
def c1St : SrvState :=
  { haveQuit := false, updateState := .idle,
    tunnels := ⟨.stopped, ""⟩, activeTunnels := [] }

/-- A tunnel configuration as the UI builds it. -/
def c1Cfg : Tunnel.Config :=
  { name := "olm", endpoint := "https://app.example.net", id := "olm-1",
    secret := "s3cret", mtu := 1280, dns := "1.1.1.1", holepunch := true,
    pingIntervalSeconds := 5, pingTimeoutSeconds := 5, userToken := "T1",
    orgID := "o1", interfaceName := "Pangolin", upstreamDNS := ["1.1.1.1:53"],
    overrideDNS := true, tunnelDNS := false }

/-- C1 (counterexample to the claim as stated). With a zero elevated
token: an `Update` request produces *no reply at all* (no fixed error
string — the state and both output lists stay empty), and a `StartTunnel`
request *does perform its side effect* — the tunnel worker service install
is requested and the reply is the empty success string, not an error.
There is no elevation gate on `StartTunnel`/`StopTunnel`, and no
`SwitchOrg` Manager method exists (org switching goes to the worker's
control endpoint directly). -/
theorem serveConn_no_elevation_gate :
    serveConn c1Ctx 0 c1St [.update] = (c1St, [], []) ∧
      Tunnel.Effect.install "olm" ∈ (serveConn c1Ctx 0 c1St [.startTunnel c1Cfg]).2.2 ∧
      (serveConn c1Ctx 0 c1St [.startTunnel c1Cfg]).2.1 = [.s ""] := by
  refine ⟨by decide, by decide, by decide⟩

theorem mgrQuit_no_download (stopT : Bool) (st : SrvState) :
    Tunnel.Effect.download ∉ (mgrQuit stopT st).2.2 := by
  unfold mgrQuit
  split
  · simp
  · split <;> simp [List.mem_map]

theorem mgrStartTunnel_no_download (ctx : SrvCtx) (cfg : Tunnel.Config) (st : SrvState) :
    Tunnel.Effect.download ∉ (mgrStartTunnel ctx cfg st).2.2 := by
  unfold mgrStartTunnel Tunnel.StartTunnel
  rcases ctx.install cfg.name with e | u <;> simp

theorem mgrStopTunnel_no_download (ctx : SrvCtx) (st : SrvState) :
    Tunnel.Effect.download ∉ (mgrStopTunnel ctx st).2.2 := by
  unfold mgrStopTunnel Tunnel.StopTunnel
  rcases ctx.uninstall (Tunnel.stopName st.tunnels) with e | u <;> simp

theorem serveConn_zero_token_no_download (ctx : SrvCtx) :
    ∀ (reqs : List Request) (st : SrvState),
      Tunnel.Effect.download ∉ (serveConn ctx 0 st reqs).2.2 := by
  intro reqs
  induction reqs with
  | nil => intro st; simp [serveConn]
  | cons r rest ih =>
      intro st
      cases r with
      | quit stopT =>
          rcases hS : mgrQuit stopT st with ⟨rq, st', effs⟩
          rcases hR : serveConn ctx 0 st' rest with ⟨stF, resps, effs'⟩
          simp only [serveConn, hS, hR, List.mem_append]
          rintro (hm | hm)
          · exact mgrQuit_no_download stopT st (by rw [hS]; exact hm)
          · exact ih st' (by rw [hR]; exact hm)
      | updateState =>
          rcases hR : serveConn ctx 0 st rest with ⟨stF, resps, effs'⟩
          simp only [serveConn, hR]
          intro hm
          exact ih st (by rw [hR]; exact hm)
      | update =>
          have hstep : serveConn ctx 0 st (.update :: rest) = serveConn ctx 0 st rest := rfl
          rw [hstep]
          exact ih st
      | startTunnel cfg =>
          rcases hS : mgrStartTunnel ctx cfg st with ⟨err, st', effs⟩
          rcases hR : serveConn ctx 0 st' rest with ⟨stF, resps, effs'⟩
          simp only [serveConn, hS, hR, List.mem_append]
          rintro (hm | hm)
          · exact mgrStartTunnel_no_download ctx cfg st (by rw [hS]; exact hm)
          · exact ih st' (by rw [hR]; exact hm)
      | stopTunnelReq =>
          rcases hS : mgrStopTunnel ctx st with ⟨err, st', effs⟩
          rcases hR : serveConn ctx 0 st' rest with ⟨stF, resps, effs'⟩
          simp only [serveConn, hS, hR, List.mem_append]
          rintro (hm | hm)
          · exact mgrStopTunnel_no_download ctx st (by rw [hS]; exact hm)
          · exact ih st' (by rw [hR]; exact hm)
      | unknown => simp [serveConn]

/-- C1 (amended). Of the Manager's RPC methods only `Update` checks
the elevated token, and with a zero token it is a complete no-op: the
request is swallowed with no state change, no response frame (in
particular no error string — `Update` never writes a response), and no
side effect; and on a zero-token connection no download is ever started,
so no `UpdateProgress` event is ever emitted.  `StartTunnel` and
`StopTunnel` carry no elevation check and perform their side effects for
any token (counterexample), and `SwitchOrg` is not a Manager method. -/
theorem serveConn_update_gate (ctx : SrvCtx) (st : SrvState) (reqs : List Request) :
    serveConn ctx 0 st (.update :: reqs) = serveConn ctx 0 st reqs ∧
      Tunnel.Effect.download ∉ (serveConn ctx 0 st reqs).2.2 :=
  ⟨rfl, serveConn_zero_token_no_download ctx reqs st⟩

end Managers

end PangolinSpec
